import Mathlib

/-!
Shallow embedding of the realtime voice pipeline of `src/components/VoiceAssistant.tsx`
(NexaAi-Studio): the playback scheduler, the transcription accumulation, and the
session lifecycle controller, modelled as pure state-transition functions.

Time is modelled as `ℚ` (the audio clock `currentTime` and buffer durations).
Every created `AudioBufferSourceNode` is recorded in a ledger (`nodes`), with its
scheduled start time, its buffer duration and whether `stop()` has been called on
it; `sources` holds the indices of the nodes currently in `sourcesRef`.
-/

/-- `TranscriptTurn` from `src/types.ts`: a finalized {user, model} text pairing. -/
structure TranscriptTurn where
  user : String
  model : String
deriving DecidableEq, Repr

/-- `ConnectionState` union type (VoiceAssistant.tsx line 9). -/
inductive ConnectionState
  | idle
  | connecting
  | connected
  | error
  | closed
deriving DecidableEq, Repr

/-- `VoiceStatus` union type (VoiceAssistant.tsx line 10). -/
inductive VoiceStatus
  | Idle
  | Listening
  | Speaking
  | Connecting
deriving DecidableEq, Repr

/-- One `AudioBufferSourceNode` created by the playback scheduler: its scheduled
start time (the argument of `source.start(...)`), its decoded buffer's duration,
and whether `stop()` has been invoked on it. -/
structure SourceNode where
  startTime : ℚ
  duration : ℚ
  stopped : Bool
deriving DecidableEq, Repr

/-- The fields of a `LiveServerMessage.serverContent` that `onmessage` reads:
an optional inline audio payload (abstracted to the duration of its decoded
buffer), optional input/output transcription fragments, and the turn-complete
and interrupted markers. -/
structure ServerContent where
  audioData : Option ℚ
  inputTranscription : Option String
  outputTranscription : Option String
  turnComplete : Bool
  interrupted : Bool
deriving DecidableEq, Repr

/-- Playback / transcript state of the assistant: `nextStartTimeRef`, the ledger
of all created source nodes, the indices currently in `sourcesRef`, the two
in-progress transcription accumulators (the live React store, kept fresh by the
functional `setState(prev => ...)` updates), the live turn history, and the
voice status.

The last three fields model the stale closure captures: `onmessage` is created
once inside `startConversation`, so its reads of `currentInputTranscription`,
`currentOutputTranscription` (lines 144-145) and of the `history` prop
(line 148) are frozen at the values of the render in which the conversation was
started. They are constants of the conversation: no transition updates them. -/
structure VAState where
  nextStartTime : ℚ
  nodes : List SourceNode
  sources : List Nat
  currentInput : String
  currentOutput : String
  history : List TranscriptTurn
  voiceStatus : VoiceStatus
  frozenInput : String
  frozenOutput : String
  frozenHistory : List TranscriptTurn
deriving DecidableEq, Repr

/-- Fresh playback state: `nextStartTimeRef.current = 0`, empty `sourcesRef`,
empty accumulators and history; a conversation started on a fresh mount also
has empty closure captures. -/
def initialVAState : VAState :=
  { nextStartTime := 0
    nodes := []
    sources := []
    currentInput := ""
    currentOutput := ""
    history := []
    voiceStatus := VoiceStatus.Idle
    frozenInput := ""
    frozenOutput := ""
    frozenHistory := [] }

/-- Lines 115-125: clamp the cursor to the playback clock, create a source node
for the decoded buffer, schedule it at the cursor, advance the cursor by the
buffer's duration, and add the node to `sourcesRef`. -/
def scheduleAudio (s : VAState) (now d : ℚ) : VAState :=
  let t := max s.nextStartTime now
  { s with
    voiceStatus := VoiceStatus.Speaking
    nextStartTime := t + d
    nodes := s.nodes ++ [⟨t, d, false⟩]
    sources := s.sources ++ [s.nodes.length] }

/-- Effect of `sourcesRef.current.forEach(source => source.stop())` on the node
ledger: mark every node whose index is in the scheduled set as stopped.
`i` is the index of the head of the remaining ledger. -/
def stopScheduled (sched : List Nat) : Nat → List SourceNode → List SourceNode
  | _, [] => []
  | i, n :: rest =>
      (if i ∈ sched then { n with stopped := true } else n) :: stopScheduled sched (i + 1) rest

/-- Lines 154-158: on `interrupted`, force-stop every scheduled source, clear the
set, and reset the cursor to zero. -/
def handleInterrupt (s : VAState) : VAState :=
  { s with
    nodes := stopScheduled s.sources 0 s.nodes
    sources := []
    nextStartTime := 0 }

/-- JavaScript truthiness of `s.trim()` (line 147): the trimmed string is
non-empty exactly when `s` contains a non-whitespace character. -/
def trimmedNonempty (s : String) : Bool :=
  s.toList.any (fun c => !c.isWhitespace)

/-- The `onmessage` callback (lines 112-158), as a state transition at playback
clock time `now`: schedule any inline audio, append any transcription fragments
(functional `setState` updates, so they act on the live accumulators), finalize
the turn on `turnComplete`, and process `interrupted` last.

The turn-complete branch (lines 142-151) reads `currentInputTranscription`,
`currentOutputTranscription` and the `history` prop directly, and those closure
bindings are frozen at conversation start: `fullInput`/`fullOutput` see only the
frozen captures plus the same-message fragments, and an append replaces the
live history with the frozen `history` plus the one new turn. -/
def onmessage (s : VAState) (now : ℚ) (m : ServerContent) : VAState :=
  let s1 := match m.audioData with
    | some d => scheduleAudio s now d
    | none => s
  let tempInput := m.inputTranscription.getD ""
  let tempOutput := m.outputTranscription.getD ""
  let s2 := match m.inputTranscription with
    | some t => { s1 with voiceStatus := VoiceStatus.Listening, currentInput := s1.currentInput ++ t }
    | none => s1
  let s3 := match m.outputTranscription with
    | some t => { s2 with voiceStatus := VoiceStatus.Speaking, currentOutput := s2.currentOutput ++ t }
    | none => s2
  let s4 :=
    if m.turnComplete then
      let fullInput := s.frozenInput ++ tempInput
      let fullOutput := s.frozenOutput ++ tempOutput
      let hist :=
        if trimmedNonempty fullInput || trimmedNonempty fullOutput then
          s.frozenHistory ++ [⟨fullInput, fullOutput⟩]
        else s3.history
      { s3 with
        voiceStatus := VoiceStatus.Listening
        history := hist
        currentInput := ""
        currentOutput := "" }
    else s3
  if m.interrupted then handleInterrupt s4 else s4

/-- A message carrying only an inline audio payload of decoded duration `d`. -/
def audioOnly (d : ℚ) : ServerContent :=
  { audioData := some d
    inputTranscription := none
    outputTranscription := none
    turnComplete := false
    interrupted := false }

/-- A message carrying only the interruption marker. -/
def interruptOnly : ServerContent :=
  { audioData := none
    inputTranscription := none
    outputTranscription := none
    turnComplete := false
    interrupted := true }

/-- A message carrying an inline audio payload together with the interruption
marker. -/
def audioWithInterrupt (d : ℚ) : ServerContent :=
  { audioData := some d
    inputTranscription := none
    outputTranscription := none
    turnComplete := false
    interrupted := true }

/-- Feed a sequence of audio-only messages to `onmessage`; each event is a pair
(playback clock time at receipt, decoded buffer duration). -/
def runAudio (s : VAState) : List (ℚ × ℚ) → VAState
  | [] => s
  | e :: rest => runAudio (onmessage s e.1 (audioOnly e.2)) rest

/-- An `AudioContext`'s lifecycle state, as read by the teardown guard
(`state !== ClosedContext`). -/
inductive CtxState
  | running
  | closed
deriving DecidableEq, Repr

/-- The lifecycle controller's state: the connection state, the surfaced error
message, the voice status, and the resource refs: `sessionPromiseRef`,
`streamRef`, `scriptProcessorRef`, `mediaStreamSourceRef` (modelled as a Bool,
whether the ref is non-null), and the two audio-context refs (modelled as
`Option CtxState`: `none` when the ref is null, otherwise the context's state). -/
structure CtrlState where
  connectionState : ConnectionState
  errorMsg : Option String
  voiceStatus : VoiceStatus
  session : Bool
  stream : Bool
  scriptProcessor : Bool
  mediaStreamSource : Bool
  inputCtx : Option CtxState
  outputCtx : Option CtxState
deriving DecidableEq, Repr

/-- `stopConversation` (lines 39-71): close the session and null the ref, stop
the microphone tracks and null the ref, disconnect both audio nodes and null
their refs, close each audio context that exists and is not already closed
(leaving the context refs in place), then set state `idle`, status `Idle`. -/
def stopConversation (s : CtrlState) : CtrlState :=
  { s with
    session := false
    stream := false
    scriptProcessor := false
    mediaStreamSource := false
    inputCtx := s.inputCtx.map (fun _ => CtxState.closed)
    outputCtx := s.outputCtx.map (fun _ => CtxState.closed)
    connectionState := ConnectionState.idle
    voiceStatus := VoiceStatus.Idle }

/-- The message set by the `onerror` callback (line 162). -/
def transportErrorMessage : String :=
  "A connection error occurred. Please check your network and try starting the conversation again."

/-- The permission-denied message of the `startConversation` catch block (line 189). -/
def permissionErrorMessage : String :=
  "Microphone access was denied. Please allow microphone permissions in your browser settings and try again."

/-- The fallback message for a thrown value that is not an `Error` (line 186). -/
def genericErrorMessage : String :=
  "An unexpected error occurred."

/-- The `onerror` callback (lines 160-166): set the transport error message,
state `error`, status `Idle`, then run `stopConversation` (which overwrites the
connection state with `idle`). -/
def onerror (s : CtrlState) : CtrlState :=
  stopConversation
    { s with
      errorMsg := some transportErrorMessage
      connectionState := ConnectionState.error
      voiceStatus := VoiceStatus.Idle }

/-- The `onclose` callback (lines 167-171): set state `closed`, status `Idle`,
then run `stopConversation` (which overwrites the connection state with `idle`). -/
def onclose (s : CtrlState) : CtrlState :=
  stopConversation
    { s with
      connectionState := ConnectionState.closed
      voiceStatus := VoiceStatus.Idle }

/-- The component-disposal cleanup (useEffect return, lines 200-204): it just
calls `stopConversation`. -/
def disposeCleanup (s : CtrlState) : CtrlState :=
  stopConversation s

/-- A thrown JavaScript `Error`'s observable fields. -/
structure JsError where
  name : String
  message : String
deriving DecidableEq, Repr

/-- Outcome of the awaited part of `startConversation`: `getUserMedia` resolved
(and the session connect was initiated), or it threw an `Error`, or it threw a
non-`Error` value. -/
inductive StartResult
  | ok
  | jsError (e : JsError)
  | nonError
deriving DecidableEq, Repr

/-- `hay` contains `pat` as a contiguous substring (JavaScript `String.includes`,
on character lists). -/
def containsSub (hay pat : List Char) : Bool :=
  match hay with
  | [] => pat.isEmpty
  | _ :: rest => pat.isPrefixOf hay || containsSub rest pat

/-- The permission-denied test of the catch block (line 188). -/
def isPermissionError (e : JsError) : Bool :=
  e.name == "NotAllowedError" || e.name == "PermissionDeniedError"
    || containsSub e.message.toList "Permission denied".toList

/-- The user-facing message computed by the catch block (lines 186-193). -/
def startupErrorMessage : StartResult → String
  | StartResult.jsError e =>
      if isPermissionError e then permissionErrorMessage else e.message
  | _ => genericErrorMessage

/-- `startConversation` (lines 73-198) up to (not including) the `onopen`
callback: the guard at line 74 returns unless the state is `idle`, `error` or
`closed`; otherwise state becomes `connecting` and the error is cleared; on
success the microphone stream, the output audio context and the session promise
are acquired; on a thrown error the catch block surfaces its message and sets
state `error`, status `Idle`. -/
def startConversation (s : CtrlState) (r : StartResult) : CtrlState :=
  if s.connectionState ≠ ConnectionState.idle ∧ s.connectionState ≠ ConnectionState.error
      ∧ s.connectionState ≠ ConnectionState.closed then
    s
  else
    let s1 := { s with
      connectionState := ConnectionState.connecting
      voiceStatus := VoiceStatus.Connecting
      errorMsg := none }
    match r with
    | StartResult.ok =>
        { s1 with
          stream := true
          outputCtx := some CtxState.running
          session := true }
    | e =>
        { s1 with
          errorMsg := some (startupErrorMessage e)
          connectionState := ConnectionState.error
          voiceStatus := VoiceStatus.Idle }

/-- The `onopen` callback (lines 93-111): state `connected`, the input audio
context created and the capture nodes connected. -/
def onopen (s : CtrlState) : CtrlState :=
  { s with
    connectionState := ConnectionState.connected
    inputCtx := some CtxState.running
    mediaStreamSource := true
    scriptProcessor := true }

/-- Closed form of the cursor after feeding a sequence of audio events, starting
from cursor value `c`: each event clamps the cursor to the clock and advances it
by the duration. -/
def schedCursor (c : ℚ) : List (ℚ × ℚ) → ℚ
  | [] => c
  | e :: rest => schedCursor (max c e.1 + e.2) rest

/-- Closed form of the source nodes created by feeding a sequence of audio
events, starting from cursor value `c`. -/
def schedNodes (c : ℚ) : List (ℚ × ℚ) → List SourceNode
  | [] => []
  | e :: rest => ⟨max c e.1, e.2, false⟩ :: schedNodes (max c e.1 + e.2) rest

/-- The value of `nextStartTimeRef` just before unit `k` (0-based) of an
audio-only event sequence is scheduled, starting from a fresh state. -/
def cursorBefore (evts : List (ℚ × ℚ)) (k : Nat) : ℚ :=
  (runAudio initialVAState (evts.take k)).nextStartTime

/-- The start time passed to `source.start(...)` for unit `k` (0-based) of an
audio-only event sequence fed to a fresh state (`none` if there is no unit `k`). -/
def scheduledStart (evts : List (ℚ × ℚ)) (k : Nat) : Option ℚ :=
  ((runAudio initialVAState evts).nodes.get? k).map SourceNode.startTime

/-- A mid-playback state: two units scheduled back-to-back (durations 4 and 3),
cursor at 7, both still in the scheduled set. -/
def sampleVAState : VAState :=
  { nextStartTime := 7
    nodes := [⟨0, 4, false⟩, ⟨4, 3, false⟩]
    sources := [0, 1]
    currentInput := ""
    currentOutput := ""
    history := []
    voiceStatus := VoiceStatus.Speaking
    frozenInput := ""
    frozenOutput := ""
    frozenHistory := [] }

/-- A controller state mid-conversation: connected, all resources acquired. -/
def connectedCtrl : CtrlState :=
  { connectionState := ConnectionState.connected
    errorMsg := none
    voiceStatus := VoiceStatus.Listening
    session := true
    stream := true
    scriptProcessor := true
    mediaStreamSource := true
    inputCtx := some CtxState.running
    outputCtx := some CtxState.running }

/-- A fresh controller state: idle, nothing acquired. -/
def idleCtrl : CtrlState :=
  { connectionState := ConnectionState.idle
    errorMsg := none
    voiceStatus := VoiceStatus.Idle
    session := false
    stream := false
    scriptProcessor := false
    mediaStreamSource := false
    inputCtx := none
    outputCtx := none }

lemma onmessage_audioOnly (s : VAState) (now d : ℚ) :
    onmessage s now (audioOnly d) = scheduleAudio s now d := rfl

lemma onmessage_interruptOnly (s : VAState) (now : ℚ) :
    onmessage s now interruptOnly = handleInterrupt s := rfl

lemma onmessage_audioWithInterrupt (s : VAState) (now d : ℚ) :
    onmessage s now (audioWithInterrupt d) = handleInterrupt (scheduleAudio s now d) := rfl

lemma runAudio_nextStartTime (evts : List (ℚ × ℚ)) (s : VAState) :
    (runAudio s evts).nextStartTime = schedCursor s.nextStartTime evts := by
  induction evts generalizing s with
  | nil => rfl
  | cons e rest ih =>
      show (runAudio (onmessage s e.1 (audioOnly e.2)) rest).nextStartTime = _
      rw [onmessage_audioOnly, ih]
      rfl

lemma runAudio_nodes (evts : List (ℚ × ℚ)) (s : VAState) :
    (runAudio s evts).nodes = s.nodes ++ schedNodes s.nextStartTime evts := by
  induction evts generalizing s with
  | nil => simp [runAudio, schedNodes]
  | cons e rest ih =>
      show (runAudio (onmessage s e.1 (audioOnly e.2)) rest).nodes = _
      rw [onmessage_audioOnly, ih]
      simp [scheduleAudio, schedNodes]

lemma schedNodes_length (evts : List (ℚ × ℚ)) (c : ℚ) :
    (schedNodes c evts).length = evts.length := by
  induction evts generalizing c with
  | nil => rfl
  | cons e rest ih => simp [schedNodes, ih]

lemma schedCursor_append (l₁ l₂ : List (ℚ × ℚ)) (c : ℚ) :
    schedCursor c (l₁ ++ l₂) = schedCursor (schedCursor c l₁) l₂ := by
  induction l₁ generalizing c with
  | nil => rfl
  | cons e rest ih => simp [schedCursor, ih]

lemma schedNodes_get? (evts : List (ℚ × ℚ)) (c : ℚ) (k : Nat) (hk : k < evts.length) :
    (schedNodes c evts).get? k =
      some ⟨max (schedCursor c (evts.take k)) (evts.get ⟨k, hk⟩).1, (evts.get ⟨k, hk⟩).2, false⟩ := by
  induction evts generalizing c k with
  | nil => exact absurd hk (Nat.not_lt_zero k)
  | cons e rest ih =>
      cases k with
      | zero => simp [schedNodes, schedCursor]
      | succ k =>
          have hk' : k < rest.length := Nat.lt_of_succ_lt_succ hk
          simpa [schedNodes, schedCursor] using ih (max c e.1 + e.2) k hk'

lemma schedCursor_ge_sum (evts : List (ℚ × ℚ)) (c : ℚ) :
    c + ((evts.map Prod.snd).sum) ≤ schedCursor c evts := by
  induction evts generalizing c with
  | nil => simp [schedCursor]
  | cons e rest ih =>
      have h1 : c ≤ max c e.1 := le_max_left c e.1
      have h2 := ih (max c e.1 + e.2)
      simp only [schedCursor, List.map_cons, List.sum_cons]
      linarith

lemma schedCursor_eq_sum (evts : List (ℚ × ℚ)) (c : ℚ)
    (h : ∀ k (hk : k < evts.length), (evts.get ⟨k, hk⟩).1 ≤ schedCursor c (evts.take k)) :
    schedCursor c evts = c + (evts.map Prod.snd).sum := by
  induction evts generalizing c with
  | nil => simp [schedCursor]
  | cons e rest ih =>
      have h0 : e.1 ≤ c := by simpa [schedCursor] using h 0 (Nat.succ_pos _)
      have hmax : max c e.1 = c := max_eq_left h0
      have hrest : ∀ k (hk : k < rest.length),
          (rest.get ⟨k, hk⟩).1 ≤ schedCursor (c + e.2) (rest.take k) := by
        intro k hk
        have := h (k + 1) (Nat.succ_lt_succ hk)
        simpa [schedCursor, hmax] using this
      have := ih (c + e.2) hrest
      simp only [schedCursor, hmax, List.map_cons, List.sum_cons, this]
      ring

/-- C1: with no interruption, the scheduler keeps a next-start-time cursor;
unit k starts at `max(cursor, playback_clock_now)`, the cursor before unit k is
the running sum of prior durations (raised where the clock clamp applied, and
exactly the plain sum when the clock never overtook the cursor), the cursor is
advanced by exactly unit k's duration, consecutive units play back-to-back with
no gap and no overlap, and a late unit starts at the clock, never in the past. -/
theorem C1_gapless_backToBack_scheduling (evts : List (ℚ × ℚ)) (k : Nat)
    (hk : k < evts.length) :
    scheduledStart evts k
        = some (max (cursorBefore evts k) (evts.get ⟨k, hk⟩).1)
    ∧ cursorBefore evts (k + 1)
        = max (cursorBefore evts k) (evts.get ⟨k, hk⟩).1 + (evts.get ⟨k, hk⟩).2
    ∧ (∀ t, scheduledStart evts k = some t →
        (evts.get ⟨k, hk⟩).1 ≤ t ∧ cursorBefore evts k ≤ t)
    ∧ (∀ hk1 : k + 1 < evts.length, ∀ t t1,
        scheduledStart evts k = some t → scheduledStart evts (k + 1) = some t1 →
          t + (evts.get ⟨k, hk⟩).2 ≤ t1
          ∧ ((evts.get ⟨k + 1, hk1⟩).1 ≤ t + (evts.get ⟨k, hk⟩).2 →
              t1 = t + (evts.get ⟨k, hk⟩).2))
    ∧ ((evts.take k).map Prod.snd).sum ≤ cursorBefore evts k
    ∧ ((∀ j (hj : j < k), (evts.get ⟨j, hj.trans hk⟩).1 ≤ cursorBefore evts j) →
        cursorBefore evts k = ((evts.take k).map Prod.snd).sum) := by
  have hcb : ∀ j, cursorBefore evts j = schedCursor 0 (evts.take j) := by
    intro j
    show (runAudio initialVAState (evts.take j)).nextStartTime = _
    rw [runAudio_nextStartTime]
    rfl
  have hss : ∀ j (hj : j < evts.length),
      scheduledStart evts j
        = some (max (schedCursor 0 (evts.take j)) (evts.get ⟨j, hj⟩).1) := by
    intro j hj
    show ((runAudio initialVAState evts).nodes.get? j).map SourceNode.startTime = _
    rw [runAudio_nodes]
    show (((schedNodes 0 evts).get? j)).map SourceNode.startTime = _
    rw [schedNodes_get? evts 0 j hj]
    rfl
  have htake : evts.take (k + 1) = evts.take k ++ [evts.get ⟨k, hk⟩] := by
    rw [List.take_succ, List.getElem?_eq_getElem hk]
    simp [List.get_eq_getElem]
  have hcb1 : cursorBefore evts (k + 1)
      = max (cursorBefore evts k) (evts.get ⟨k, hk⟩).1 + (evts.get ⟨k, hk⟩).2 := by
    rw [hcb, hcb, htake, schedCursor_append]
    rfl
  refine ⟨by rw [hcb]; exact hss k hk, hcb1, ?_, ?_, ?_, ?_⟩
  · intro t ht
    have h1 : max (schedCursor 0 (evts.take k)) (evts.get ⟨k, hk⟩).1 = t :=
      Option.some.inj ((hss k hk).symm.trans ht)
    subst h1
    exact ⟨le_max_right _ _, by rw [hcb]; exact le_max_left _ _⟩
  · intro hk1 t t1 ht ht1
    have h1 : max (schedCursor 0 (evts.take k)) (evts.get ⟨k, hk⟩).1 = t :=
      Option.some.inj ((hss k hk).symm.trans ht)
    have h2 : max (schedCursor 0 (evts.take (k + 1))) (evts.get ⟨k + 1, hk1⟩).1 = t1 :=
      Option.some.inj ((hss (k + 1) hk1).symm.trans ht1)
    have h3 : schedCursor 0 (evts.take (k + 1)) = t + (evts.get ⟨k, hk⟩).2 := by
      have h4 := hcb1
      rw [hcb, hcb] at h4
      rw [h4, h1]
    subst h2
    rw [h3]
    exact ⟨le_max_left _ _, fun hle => max_eq_left hle⟩
  · rw [hcb]
    have h5 := schedCursor_ge_sum (evts.take k) 0
    simpa using h5
  · intro hmono
    rw [hcb]
    have happ : ∀ j (hj : j < (evts.take k).length),
        ((evts.take k).get ⟨j, hj⟩).1 ≤ schedCursor 0 ((evts.take k).take j) := by
      intro j hj
      have hjk : j < k := by
        have := hj
        rw [List.length_take] at this
        exact lt_of_lt_of_le this (min_le_left _ _)
      have hget : (evts.take k).get ⟨j, hj⟩ = evts.get ⟨j, hjk.trans hk⟩ := by
        simp [List.get_eq_getElem, List.getElem_take]
      have htt : (evts.take k).take j = evts.take j := by
        rw [List.take_take]
        congr 1
        exact min_eq_left hjk.le
      rw [hget, htt]
      have h6 := hmono j hjk
      rwa [hcb] at h6
    have h7 := schedCursor_eq_sum (evts.take k) 0 happ
    simpa using h7

/-- Witness for C1 at `evts = [(0, 2), (1, 3), (10, 1)]`, `k = 1`: unit 1 is
scheduled at `max(2, 1) = 2`. -/
theorem C1_gapless_backToBack_scheduling_witness :
    scheduledStart [((0 : ℚ), (2 : ℚ)), (1, 3), (10, 1)] 1 = some 2 := by
  have h := C1_gapless_backToBack_scheduling [((0 : ℚ), (2 : ℚ)), (1, 3), (10, 1)] 1
    (by decide)
  have e1 : cursorBefore [((0 : ℚ), (2 : ℚ)), (1, 3), (10, 1)] 1 = 2 := by
    show (runAudio initialVAState _).nextStartTime = 2
    rw [runAudio_nextStartTime]
    norm_num [schedCursor, initialVAState]
  rw [h.1, e1]
  show some (max (2 : ℚ) 1) = some 2
  rw [max_eq_left (by norm_num : (1 : ℚ) ≤ (2 : ℚ))]

lemma stopScheduled_length (sched : List Nat) (l : List SourceNode) (i₀ : Nat) :
    (stopScheduled sched i₀ l).length = l.length := by
  induction l generalizing i₀ with
  | nil => rfl
  | cons n rest ih => simp [stopScheduled, ih]

lemma stopScheduled_get? (sched : List Nat) (l : List SourceNode) (i₀ i : Nat)
    (h : i < l.length) :
    (stopScheduled sched i₀ l).get? i =
      some (if (i₀ + i) ∈ sched then { l.get ⟨i, h⟩ with stopped := true }
            else l.get ⟨i, h⟩) := by
  induction l generalizing i₀ i with
  | nil => exact absurd h (Nat.not_lt_zero i)
  | cons n rest ih =>
      cases i with
      | zero =>
          have h1 : (stopScheduled sched i₀ (n :: rest)).get? 0
              = some (if i₀ ∈ sched then { n with stopped := true } else n) := rfl
          rw [h1]
          simp
      | succ i =>
          have h2 : i < rest.length := Nat.lt_of_succ_lt_succ h
          have h3 := ih (i₀ + 1) i h2
          have h4 : (stopScheduled sched i₀ (n :: rest)).get? (i + 1)
              = (stopScheduled sched (i₀ + 1) rest).get? i := rfl
          rw [h4, h3]
          have h5 : i₀ + 1 + i = i₀ + (i + 1) := by omega
          rw [h5]
          rfl

lemma stopScheduled_append (sched : List Nat) (l₁ l₂ : List SourceNode) (i₀ : Nat) :
    stopScheduled sched i₀ (l₁ ++ l₂)
      = stopScheduled sched i₀ l₁ ++ stopScheduled sched (i₀ + l₁.length) l₂ := by
  induction l₁ generalizing i₀ with
  | nil => simp [stopScheduled]
  | cons n rest ih =>
      have h1 : stopScheduled sched i₀ ((n :: rest) ++ l₂)
          = (if i₀ ∈ sched then { n with stopped := true } else n)
            :: stopScheduled sched (i₀ + 1) (rest ++ l₂) := rfl
      rw [h1, ih (i₀ + 1)]
      have h2 : i₀ + 1 + rest.length = i₀ + (n :: rest).length := by
        simp only [List.length_cons]
        omega
      rw [h2]
      rfl

lemma onmessage_nonAudio_interrupt (s : VAState) (now : ℚ) (m : ServerContent)
    (hm : m.interrupted = true) (ha : m.audioData = none) :
    (onmessage s now m).nodes = stopScheduled s.sources 0 s.nodes
    ∧ (onmessage s now m).sources = []
    ∧ (onmessage s now m).nextStartTime = 0 := by
  rcases m with ⟨ad, it, ot, tc, ir⟩
  simp only at hm ha
  subst hm
  subst ha
  cases it <;> cases ot <;> cases tc <;>
    simp [onmessage, handleInterrupt]

/-- C2: on an interruption signal (a message carrying the interruption marker
and no audio), every currently scheduled source is force-stopped, the scheduled
set is emptied, the cursor is reset to zero, and a unit arriving afterwards at
clock time `now2 ≥ 0` is scheduled to start at `now2`, not at the old cursor. -/
theorem C2_interrupt_clears_set_and_resets_cursor (s : VAState) (now now2 d : ℚ)
    (m : ServerContent) (hm : m.interrupted = true) (ha : m.audioData = none)
    (hnow2 : 0 ≤ now2) :
    (onmessage s now m).sources = []
    ∧ (onmessage s now m).nextStartTime = 0
    ∧ (∀ i, i ∈ s.sources → ∀ h : i < s.nodes.length,
        (onmessage s now m).nodes.get? i
          = some { s.nodes.get ⟨i, h⟩ with stopped := true })
    ∧ (onmessage (onmessage s now m) now2 (audioOnly d)).nodes.getLast?
        = some ⟨now2, d, false⟩ := by
  obtain ⟨hnodes, hsrc, hcur⟩ := onmessage_nonAudio_interrupt s now m hm ha
  refine ⟨hsrc, hcur, ?_, ?_⟩
  · intro i hi h
    rw [hnodes, stopScheduled_get? s.sources s.nodes 0 i h]
    simp [hi]
  · rw [onmessage_audioOnly]
    show ((onmessage s now m).nodes ++ _).getLast? = _
    rw [List.getLast?_concat]
    rw [hcur, max_eq_right hnow2]

/-- C10: a message carrying both an audio payload and the interruption marker
schedules the audio first, at `max(pre-interruption cursor, now)`, and processes
the interruption afterwards: that same-message unit ends up force-stopped, the
scheduled set is empty, the cursor is zero, and every previously scheduled
source is stopped as well. -/
theorem C10_audio_scheduled_before_interrupt (s : VAState) (now d : ℚ) :
    (onmessage s now (audioWithInterrupt d)).sources = []
    ∧ (onmessage s now (audioWithInterrupt d)).nextStartTime = 0
    ∧ (onmessage s now (audioWithInterrupt d)).nodes.getLast?
        = some ⟨max s.nextStartTime now, d, true⟩
    ∧ (∀ i, i ∈ s.sources → ∀ h : i < s.nodes.length,
        (onmessage s now (audioWithInterrupt d)).nodes.get? i
          = some { s.nodes.get ⟨i, h⟩ with stopped := true }) := by
  rw [onmessage_audioWithInterrupt]
  have hnodes : (handleInterrupt (scheduleAudio s now d)).nodes
      = stopScheduled (s.sources ++ [s.nodes.length]) 0 s.nodes
        ++ stopScheduled (s.sources ++ [s.nodes.length]) (0 + s.nodes.length)
            [⟨max s.nextStartTime now, d, false⟩] := by
    show stopScheduled _ 0 (s.nodes ++ [⟨max s.nextStartTime now, d, false⟩]) = _
    rw [stopScheduled_append]
    rfl
  refine ⟨rfl, rfl, ?_, ?_⟩
  · rw [hnodes]
    have hmem : (0 + s.nodes.length) ∈ s.sources ++ [s.nodes.length] := by
      simp
    rw [show stopScheduled (s.sources ++ [s.nodes.length]) (0 + s.nodes.length)
          [⟨max s.nextStartTime now, d, false⟩]
        = [⟨max s.nextStartTime now, d, true⟩] by simp [stopScheduled, hmem]]
    rw [List.getLast?_concat]
  · intro i hi h
    rw [hnodes]
    rw [List.get?_append]
    · rw [stopScheduled_get? (s.sources ++ [s.nodes.length]) s.nodes 0 i h]
      have h6 : (0 + i) ∈ s.sources ++ [s.nodes.length] := by
        rw [Nat.zero_add]
        exact List.mem_append_left _ hi
      rw [if_pos h6]
    · rw [stopScheduled_length]
      exact h

/-- Witness for C2: interrupting `sampleVAState` at clock time 5 resets the
cursor, stops the first scheduled unit, and a unit of duration 2 arriving at
clock time 6 is scheduled at 6. -/
theorem C2_interrupt_clears_set_and_resets_cursor_witness :
    (onmessage sampleVAState 5 interruptOnly).nextStartTime = 0
    ∧ (onmessage (onmessage sampleVAState 5 interruptOnly) 6 (audioOnly 2)).nodes.getLast?
        = some ⟨6, 2, false⟩
    ∧ (onmessage sampleVAState 5 interruptOnly).nodes.get? 0 = some ⟨0, 4, true⟩ := by
  have h := C2_interrupt_clears_set_and_resets_cursor sampleVAState 5 6 2 interruptOnly
    rfl rfl (by decide)
  refine ⟨h.2.1, h.2.2.2, ?_⟩
  have h0 := h.2.2.1 0 (by decide) (by decide)
  exact h0.trans (by decide)

/-- Witness for C10: a combined audio+interrupt message at clock time 5 on
`sampleVAState` leaves its own unit scheduled at the old cursor 7 but stopped,
and the previously scheduled unit stopped as well. -/
theorem C10_audio_scheduled_before_interrupt_witness :
    (onmessage sampleVAState 5 (audioWithInterrupt 2)).nodes.getLast? = some ⟨7, 2, true⟩
    ∧ (onmessage sampleVAState 5 (audioWithInterrupt 2)).nodes.get? 0 = some ⟨0, 4, true⟩ := by
  have h := C10_audio_scheduled_before_interrupt sampleVAState 5 2
  constructor
  · have h1 := h.2.2.1
    have hmax : max sampleVAState.nextStartTime (5 : ℚ) = 7 := by
      have h5 : (5 : ℚ) ≤ sampleVAState.nextStartTime := by decide
      rw [max_eq_left h5]
      rfl
    rw [hmax] at h1
    exact h1
  · have h0 := h.2.2.2 0 (by decide) (by decide)
    exact h0.trans (by decide)

/-- C5, evaluated at the failing input: the claim (and the spec's testable
property) requires a turn-complete to append the accumulated input, so after an
input fragment "hello" in one message, a bare turn-complete in the next message
must append `{user := "hello", model := ""}`. The code's turn-complete branch
reads the closure-frozen accumulators instead of the live ones, so it computes
`fullInput = "" ++ "" = ""`, the content guard fails and nothing is appended —
even though the live accumulator really did hold "hello" and is then reset.
Conversely, when text and the completion marker share one message the turn is
appended, but onto the frozen history snapshot, clobbering any turn appended
since conversation start: two such turns leave only the second in history. -/
theorem C5_staleClosure_drops_accumulated_text :
    (onmessage initialVAState 0 ⟨none, some "hello", none, false, false⟩).currentInput
        = "hello"
    ∧ (onmessage (onmessage initialVAState 0 ⟨none, some "hello", none, false, false⟩)
        0 ⟨none, none, none, true, false⟩).history = []
    ∧ (onmessage (onmessage initialVAState 0 ⟨none, some "hello", none, false, false⟩)
        0 ⟨none, none, none, true, false⟩).currentInput = ""
    ∧ (onmessage (onmessage initialVAState 0 ⟨none, some "hi", none, true, false⟩)
        0 ⟨none, some "bye", none, true, false⟩).history = [⟨"bye", ""⟩] := by decide

/-- C3: calling `stopConversation` from `connecting`, `connected` or `error`
always ends in state `idle` with the session, stream and node refs cleared and
every retained audio context closed (no live resource retained). -/
theorem C3_stop_ends_idle_all_released (s : CtrlState)
    (h : s.connectionState = ConnectionState.connecting
      ∨ s.connectionState = ConnectionState.connected
      ∨ s.connectionState = ConnectionState.error) :
    (stopConversation s).connectionState = ConnectionState.idle
    ∧ (stopConversation s).session = false
    ∧ (stopConversation s).stream = false
    ∧ (stopConversation s).scriptProcessor = false
    ∧ (stopConversation s).mediaStreamSource = false
    ∧ (∀ c, (stopConversation s).inputCtx = some c → c = CtxState.closed)
    ∧ (∀ c, (stopConversation s).outputCtx = some c → c = CtxState.closed) := by
  refine ⟨rfl, rfl, rfl, rfl, rfl, ?_, ?_⟩
  · intro c hc
    have h1 : s.inputCtx.map (fun _ => CtxState.closed) = some c := hc
    cases hin : s.inputCtx with
    | none => rw [hin] at h1; exact Option.noConfusion h1
    | some c2 => rw [hin] at h1; exact (Option.some.inj h1).symm
  · intro c hc
    have h1 : s.outputCtx.map (fun _ => CtxState.closed) = some c := hc
    cases hout : s.outputCtx with
    | none => rw [hout] at h1; exact Option.noConfusion h1
    | some c2 => rw [hout] at h1; exact (Option.some.inj h1).symm

/-- Witness for C3 at a fully connected state. -/
theorem C3_stop_ends_idle_all_released_witness :
    (stopConversation connectedCtrl).connectionState = ConnectionState.idle
    ∧ (stopConversation connectedCtrl).stream = false := by
  have h := C3_stop_ends_idle_all_released connectedCtrl (Or.inr (Or.inl rfl))
  exact ⟨h.1, h.2.2.1⟩

/-- Counterexample to C4 as stated: after a transport error from a connected
state, the controller's final connection state is `idle`, not `error` (the
`stopConversation` call inside `onerror` overwrites the `error` state). -/
theorem C4_counterexample_final_state_not_error :
    (onerror connectedCtrl).connectionState ≠ ConnectionState.error := by decide

/-- C4 (amended): on a transport error, from any state, the controller performs
exactly the full teardown of `stopConversation` and surfaces the generic
retry-suggestion message; but the teardown's own `setConnectionState('idle')`
runs after `setConnectionState('error')`, so the final state is `idle`. -/
theorem C4_transport_error_teardown_then_idle (s : CtrlState) :
    onerror s = { stopConversation s with errorMsg := some transportErrorMessage }
    ∧ (onerror s).connectionState = ConnectionState.idle
    ∧ (onerror s).errorMsg = some transportErrorMessage := by
  refine ⟨?_, rfl, rfl⟩
  cases s
  rfl

/-- Counterexample to C6 as stated: after a remote close from a connected
state, the controller's final connection state is `idle`, not `closed` (the
`stopConversation` call inside `onclose` overwrites the `closed` state). -/
theorem C6_counterexample_final_state_not_closed :
    (onclose connectedCtrl).connectionState ≠ ConnectionState.closed := by decide

/-- C6 (amended): on a normal remote close, the controller performs exactly the
same full teardown as `stopConversation`, surfaces no error message (the error
field is untouched); but the transient `closed` state is overwritten by the
teardown, so the final state is `idle`. -/
theorem C6_close_teardown_no_error_message (s : CtrlState) :
    onclose s = stopConversation s
    ∧ (onclose s).connectionState = ConnectionState.idle
    ∧ (onclose s).errorMsg = s.errorMsg := by
  refine ⟨?_, rfl, rfl⟩
  cases s
  rfl

/-- C7: teardown is idempotent (a second `stopConversation` is a no-op), and it
is the very same teardown whether triggered by explicit stop, component
disposal, remote close, or transport error (the latter additionally sets the
error message). -/
theorem C7_stop_idempotent_uniform_teardown (s : CtrlState) :
    stopConversation (stopConversation s) = stopConversation s
    ∧ disposeCleanup s = stopConversation s
    ∧ onclose s = stopConversation s
    ∧ onerror s = { stopConversation s with errorMsg := some transportErrorMessage } := by
  refine ⟨?_, rfl, ?_, ?_⟩
  · cases s with
    | mk cs em vs se st sp ms ic oc => cases ic <;> cases oc <;> rfl
  · cases s
    rfl
  · cases s
    rfl

/-- C8: `startConversation` is a silent no-op (returns the state unchanged,
acquiring nothing) whenever the state is `connecting` or `connected`. -/
theorem C8_start_noop_when_active (s : CtrlState) (r : StartResult)
    (h : s.connectionState = ConnectionState.connecting
      ∨ s.connectionState = ConnectionState.connected) :
    startConversation s r = s := by
  have hcond : s.connectionState ≠ ConnectionState.idle
      ∧ s.connectionState ≠ ConnectionState.error
      ∧ s.connectionState ≠ ConnectionState.closed := by
    rcases h with h | h <;> rw [h] <;> exact ⟨by decide, by decide, by decide⟩
  unfold startConversation
  rw [if_pos hcond]

/-- Witness for C8: starting from a connected state is a no-op. -/
theorem C8_start_noop_when_active_witness :
    startConversation connectedCtrl StartResult.ok = connectedCtrl :=
  C8_start_noop_when_active connectedCtrl StartResult.ok (Or.inr rfl)

/-- Counterexample to C9 as stated: a non-permission start-up failure whose
`Error.message` happens to equal the permission-denied text is surfaced with
the very same user-facing message, so the permission message is not distinct
from the message of every other start-up failure. -/
theorem C9_counterexample_message_not_distinct :
    isPermissionError ⟨"SomeOtherError", permissionErrorMessage⟩ = false
    ∧ (startConversation idleCtrl
        (StartResult.jsError ⟨"SomeOtherError", permissionErrorMessage⟩)).errorMsg
      = some permissionErrorMessage
    ∧ (startConversation idleCtrl
        (StartResult.jsError ⟨"NotAllowedError", "Permission denied"⟩)).errorMsg
      = some permissionErrorMessage := by decide

/-- C9 (amended): a permission-denied failure during start surfaces the
specific actionable microphone message and lands in the `error` state with no
automatic retry; that message is distinct from the transport-error and generic
fallback messages (though another Error's own pass-through message text could
in principle coincide with it). -/
theorem C9_permission_denied_specific_message (s : CtrlState) (e : JsError)
    (hs : s.connectionState = ConnectionState.idle
      ∨ s.connectionState = ConnectionState.error
      ∨ s.connectionState = ConnectionState.closed)
    (he : isPermissionError e = true) :
    (startConversation s (StartResult.jsError e)).connectionState = ConnectionState.error
    ∧ (startConversation s (StartResult.jsError e)).errorMsg = some permissionErrorMessage
    ∧ permissionErrorMessage ≠ transportErrorMessage
    ∧ permissionErrorMessage ≠ genericErrorMessage := by
  have hcond : ¬(s.connectionState ≠ ConnectionState.idle
      ∧ s.connectionState ≠ ConnectionState.error
      ∧ s.connectionState ≠ ConnectionState.closed) := by
    rcases hs with h | h | h <;> rw [h] <;> simp
  unfold startConversation
  rw [if_neg hcond]
  refine ⟨rfl, ?_, by decide, by decide⟩
  have hmsg : startupErrorMessage (StartResult.jsError e) = permissionErrorMessage := by
    show (if isPermissionError e then permissionErrorMessage else e.message)
        = permissionErrorMessage
    rw [if_pos he]
  show some (startupErrorMessage (StartResult.jsError e)) = some permissionErrorMessage
  rw [hmsg]

/-- Witness for C9 (amended), from a clean idle state with a `NotAllowedError`. -/
theorem C9_permission_denied_specific_message_witness :
    (startConversation idleCtrl
        (StartResult.jsError ⟨"NotAllowedError", "denied"⟩)).errorMsg
      = some permissionErrorMessage :=
  (C9_permission_denied_specific_message idleCtrl ⟨"NotAllowedError", "denied"⟩
    (Or.inl rfl) (by decide)).2.1
